import Mathlib

/-!
# Shallow embedding of the Asteroids game simulation core

This file embeds the per-frame simulation core of
`src/CompGraphicsProject/main.cpp` (an Asteroids clone) in Lean 4 and proves
the testable properties of its specification against that embedding.

Modelling conventions:
* `float` arithmetic is modelled exactly on `ℚ`; decimal literals of the
  source (`0.15f`, `0.1f`, ...) become the corresponding rationals.
* OpenGL / GLFW rendering and window plumbing are out of scope (as in the
  spec); per-entity graphics handles are carried as opaque `ℕ` fields.
* `std::rand()`-derived draws are supplied by explicit oracle records
  (`SpawnRand`, `SplitRand`); draws of the form `rand()/RAND_MAX` are
  rationals intended to lie in `[0,1]`.  The two direction computations that
  involve transcendental functions — `(cos a, sin a)` for a random angle, and
  `glm::normalize` of the scattered centre-aim vector — are supplied as
  oracle vectors (`splitDir`, `aimDir`); theorems that need them to be unit
  vectors take that as an explicit hypothesis.
* `std::vector` becomes `List`; `push_back` is append, `erase(begin()+i)` is
  `List.eraseIdx i`.
-/

/-- 2D vector over `ℚ` (models `glm::vec2`). -/
structure Vec2 where
  x : ℚ
  y : ℚ
deriving DecidableEq, Repr

/-- RGB colour over `ℚ` (models `glm::vec3`, rendering-only data). -/
structure Vec3 where
  r : ℚ
  g : ℚ
  b : ℚ
deriving DecidableEq, Repr

/-- `enum AsteroidSize { SMALL, MEDIUM, LARGE }` (main.cpp line 26). -/
inductive AsteroidSize where
  | SMALL
  | MEDIUM
  | LARGE
deriving DecidableEq, Repr

open AsteroidSize

/-- `getScaleFactor` (main.cpp lines 29–36). -/
def getScaleFactor : AsteroidSize → ℚ
  | LARGE => 15/100
  | MEDIUM => 8/100
  | SMALL => 4/100

/-- `getRadiusFactor` (main.cpp lines 39–47). -/
def getRadiusFactor : AsteroidSize → ℚ
  | LARGE => 15/100
  | MEDIUM => 8/100
  | SMALL => 4/100

-- Physics constants (main.cpp lines 60–71).
def THRUST_SPEED : ℚ := 1
def ROTATION_SPEED : ℚ := 2
def FRICTION : ℚ := 995/1000
def BULLET_SPEED : ℚ := 5/2
def FIRE_RATE : ℚ := 2/10
def INITIAL_SPAWN_RATE : ℚ := 5
def MIN_SPAWN_RATE : ℚ := 1
def MAX_ASTEROIDS : ℕ := 20

/-- The exact value of `2.0f * glm::pi<float>()` in binary32:
`glm::pi<float>()` is `13176795 / 2^22`, so twice it is `13176795 / 2^21`. -/
def TWO_PI : ℚ := 13176795/2097152

/-- `struct Ship` (main.cpp lines 50–56). -/
structure Ship where
  position : Vec2
  velocity : Vec2
  rotation : ℚ
  scale : ℚ
  radius : ℚ
deriving DecidableEq, Repr

/-- The initial `Ship player;` value (all defaults, SMALL scale/radius). -/
def initShip : Ship :=
  { position := ⟨0, 0⟩, velocity := ⟨0, 0⟩, rotation := 0
    scale := getScaleFactor SMALL, radius := getRadiusFactor SMALL }

/-- `struct Asteroid` (main.cpp lines 98–107).  `VAO_Fill`/`VBO_Fill` are the
opaque graphics handles (OpenGL names); handle allocation is out of scope, so
the embedding carries them as plain numbers. -/
structure Asteroid where
  position : Vec2
  velocity : Vec2
  rotation : ℚ
  rotationSpeed : ℚ
  size : AsteroidSize
  scale : ℚ
  radius : ℚ
  color : Vec3
  VAO_Fill : ℕ
  VBO_Fill : ℕ
  vertexCount : ℕ
deriving DecidableEq, Repr

/-- Default element used for (always in-bounds) indexed reads of the asteroid
vector. -/
def defaultAsteroid : Asteroid :=
  { position := ⟨0, 0⟩, velocity := ⟨0, 0⟩, rotation := 0, rotationSpeed := 0
    size := LARGE, scale := getScaleFactor LARGE, radius := getRadiusFactor LARGE
    color := ⟨1, 2/5, 0⟩, VAO_Fill := 0, VBO_Fill := 0, vertexCount := 0 }

/-- `struct Bullet` (main.cpp lines 110–116). -/
structure Bullet where
  position : Vec2
  velocity : Vec2
  scale : ℚ
  radius : ℚ
  lifetime : ℚ
deriving DecidableEq, Repr

/-- A freshly fired bullet: the `Bullet` defaults (`scale = radius = 0.01f`,
`lifetime = 1.0f`) with position and velocity as set by `processInput`. -/
def mkBullet (p v : Vec2) : Bullet :=
  { position := p, velocity := v, scale := 1/100, radius := 1/100, lifetime := 1 }

/-- `checkCollision` (main.cpp lines 474–481): squared-distance circle
overlap test. -/
def checkCollision (pos1 : Vec2) (rad1 : ℚ) (pos2 : Vec2) (rad2 : ℚ) : Bool :=
  let dx := pos1.x - pos2.x
  let dy := pos1.y - pos2.y
  decide (dx * dx + dy * dy < (rad1 + rad2) * (rad1 + rad2))

/-- One axis of the screen wrap (main.cpp lines 644–647 and 653–656):
`if (c > 1.0f) c = -1.0f; else if (c < -1.0f) c = 1.0f;`. -/
def wrapAxis (c : ℚ) : ℚ :=
  if 1 < c then -1 else if c < -1 then 1 else c

/-- Ship physics update (main.cpp lines 642–647): friction is applied to the
velocity first, the position moves by the *new* velocity, then each axis is
wrapped independently. -/
def shipPhysicsUpdate (s : Ship) (d : ℚ) : Ship :=
  let vel : Vec2 := ⟨s.velocity.x * FRICTION, s.velocity.y * FRICTION⟩
  { s with velocity := vel
           position := ⟨wrapAxis (s.position.x + vel.x * d),
                        wrapAxis (s.position.y + vel.y * d)⟩ }

/-- Asteroid physics update (main.cpp lines 650–657): no friction, the
rotation advances by `rotationSpeed`, same per-axis wrap. -/
def asteroidPhysicsUpdate (d : ℚ) (a : Asteroid) : Asteroid :=
  { a with position := ⟨wrapAxis (a.position.x + a.velocity.x * d),
                        wrapAxis (a.position.y + a.velocity.y * d)⟩
           rotation := a.rotation + a.rotationSpeed * d }

/-- One bullet integration step (main.cpp lines 661–662): move, decrement
lifetime. -/
def bulletStep (d : ℚ) (b : Bullet) : Bullet :=
  { b with position := ⟨b.position.x + b.velocity.x * d, b.position.y + b.velocity.y * d⟩
           lifetime := b.lifetime - d }

/-- Bullet removal condition (main.cpp lines 664–665): expired lifetime or
outside the extended bounds. -/
def bulletExpired (b : Bullet) : Bool :=
  decide (b.lifetime ≤ 0) || decide ((3 : ℚ)/2 < |b.position.x|) ||
    decide ((3 : ℚ)/2 < |b.position.y|)

/-- The bullet integration loop (main.cpp lines 660–671): each bullet is
moved and aged, and expired bullets are erased in place.  The in-place
erase-while-scanning loop preserves the order of survivors, so it is the
map-then-filter below. -/
def stepBullets (d : ℚ) (bs : List Bullet) : List Bullet :=
  (bs.map (bulletStep d)).filter (fun b => !bulletExpired b)

/-- Truncation toward zero, as C `fmod` uses. -/
def ratTrunc (q : ℚ) : ℤ :=
  if 0 ≤ q then ⌊q⌋ else ⌈q⌉

/-- C `fmod(x, y) = x - trunc(x / y) * y`: the result has the sign of the
dividend `x`. -/
def ratFmod (x y : ℚ) : ℚ :=
  x - (ratTrunc (x / y) : ℚ) * y

/-- The rotation part of `processInput` (main.cpp lines 421–425): rotate
left/right by `ROTATION_SPEED * deltaTime`, then reduce with
`fmod(rotation, 2.0f * pi)`. -/
def rotationAfterInput (left right : Bool) (r d : ℚ) : ℚ :=
  let r1 := if left then r + ROTATION_SPEED * d else r
  let r2 := if right then r1 - ROTATION_SPEED * d else r1
  ratFmod r2 TWO_PI

/-- Oracle for the `std::rand()` draws of one `spawnNewAsteroid` call.
Fields in source order:
* `rRotSpeed` — the `rand()/RAND_MAX` draw for `rotationSpeed` (line 338);
* `colorIdx` — the `rand()` draw for the colour index (line 348);
* `splitDir` — split branch: models `(cos(angle), sin(angle))` for the
  uniformly random `angle` (lines 356–357); a unit vector;
* `rSplitSpeed` — split branch: the draw for `speed = 0.3 + r*0.4` (line 358);
* `rSide` — edge branch: the draw for `side = r*4` (line 363);
* `rEdgePos` — edge branch: the draw for the coordinate along the chosen
  edge, `r*2 - 1` (lines 364–367);
* `aimDir` — edge branch: models
  `normalize(normalize(target - position) + scatter)` (lines 370–374); a
  unit vector;
* `rEdgeSpeed` — edge branch: the draw for `speed = 0.1 + r*0.2`
  (line 375). -/
structure SpawnRand where
  rRotSpeed : ℚ
  colorIdx : ℕ
  splitDir : Vec2
  rSplitSpeed : ℚ
  rSide : ℚ
  rEdgePos : ℚ
  aimDir : Vec2
  rEdgeSpeed : ℚ
deriving DecidableEq, Repr

/-- The colour palette of `spawnNewAsteroid` (main.cpp lines 341–347). -/
def palette : List Vec3 :=
  [⟨1, 2/5, 0⟩, ⟨0, 4/5, 4/5⟩, ⟨4/5, 0, 4/5⟩, ⟨1, 1, 0⟩, ⟨1/10, 1, 1/10⟩]

/-- The asteroid record built by `spawnNewAsteroid` (main.cpp lines 333–379)
before it is pushed onto the vector.  `vertexCount` comes from
`setupAsteroidGraphics(newRock, 16)`: `generateFilledAsteroidVertices`
produces one centre point plus `max(16, 20) + 1` boundary points. -/
def newRockFor (rng : SpawnRand) (pos : Vec2) (size : AsteroidSize) : Asteroid :=
  let pv : Vec2 × Vec2 :=
    if pos ≠ (⟨0, 0⟩ : Vec2) then
      -- splitting (internal spawn): keep the supplied position, fully random
      -- direction, speed drawn from [0.3, 0.7]
      let speed := 3/10 + rng.rSplitSpeed * (4/10)
      (pos, ⟨rng.splitDir.x * speed, rng.splitDir.y * speed⟩)
    else
      -- external spawn (off screen): pick one of the 4 edges, aim at the
      -- centre with scatter, speed drawn from [0.1, 0.3]
      let side := rng.rSide * 4
      let p : Vec2 :=
        if side < 1 then ⟨rng.rEdgePos * 2 - 1, 11/10⟩
        else if side < 2 then ⟨rng.rEdgePos * 2 - 1, -(11/10)⟩
        else if side < 3 then ⟨-(11/10), rng.rEdgePos * 2 - 1⟩
        else ⟨11/10, rng.rEdgePos * 2 - 1⟩
      let speed := 1/10 + rng.rEdgeSpeed * (2/10)
      (p, ⟨rng.aimDir.x * speed, rng.aimDir.y * speed⟩)
  { position := pv.1, velocity := pv.2
    rotation := 0
    rotationSpeed := 3/10 + rng.rRotSpeed * (5/10)
    size := size
    scale := getScaleFactor size
    radius := getRadiusFactor size
    color := palette.getD (rng.colorIdx % 5) ⟨1, 2/5, 0⟩
    VAO_Fill := 0, VBO_Fill := 0
    vertexCount := 1 + (Nat.max 16 20 + 1) }

/-- `spawnNewAsteroid` (main.cpp lines 329–381): a spawn attempt at or above
the population cap returns immediately, leaving the vector unchanged;
otherwise the new rock is built and pushed onto the back of the vector. -/
def spawnNewAsteroid (rng : SpawnRand) (pos : Vec2) (size : AsteroidSize)
    (asteroids : List Asteroid) : List Asteroid :=
  if MAX_ASTEROIDS ≤ asteroids.length then asteroids
  else asteroids ++ [newRockFor rng pos size]

/-- `rock.size == LARGE ? MEDIUM : rock.size == MEDIUM ? SMALL : return`
(main.cpp lines 386–388). -/
def nextSizeOf : AsteroidSize → Option AsteroidSize
  | LARGE => some MEDIUM
  | MEDIUM => some SMALL
  | SMALL => none

/-- Oracle for the `std::rand()` draws of one `splitAsteroid` call: the
`(rand()/RAND_MAX)` draws for the two children's position offsets, plus one
`SpawnRand` per child. -/
structure SplitRand where
  off1x : ℚ
  off1y : ℚ
  off2x : ℚ
  off2y : ℚ
  s1 : SpawnRand
  s2 : SpawnRand
deriving DecidableEq, Repr

/-- `splitAsteroid` (main.cpp lines 383–408).

NOTE (see the stale-reference theorem below): in the source, `rock` is a
`const Asteroid&` bound to `asteroids[index]`, and the reads of `rock.scale`
and `rock.position` in the spawn loop happen *after*
`asteroids.erase(asteroids.begin() + index)`, i.e. through a dangling /
shifted reference.  This functional embedding uses the call-time value of the
parent (the intended semantics); the access-order fault itself is made
explicit by `splitAsteroidTrace`. -/
def splitAsteroid (sr : SplitRand) (rock : Asteroid) (index : ℕ)
    (asteroids : List Asteroid) : List Asteroid :=
  match nextSizeOf rock.size with
  | none => asteroids  -- small asteroids are destroyed, not split
  | some nextSize =>
    let asteroids1 := asteroids.eraseIdx index
    let asteroids2 :=
      if asteroids1.length < MAX_ASTEROIDS then
        let offsetX := (sr.off1x - 1/2) * rock.scale * (5/10)
        let offsetY := (sr.off1y - 1/2) * rock.scale * (5/10)
        spawnNewAsteroid sr.s1 ⟨rock.position.x + offsetX, rock.position.y + offsetY⟩
          nextSize asteroids1
      else asteroids1
    if asteroids2.length < MAX_ASTEROIDS then
      let offsetX := (sr.off2x - 1/2) * rock.scale * (5/10)
      let offsetY := (sr.off2y - 1/2) * rock.scale * (5/10)
      spawnNewAsteroid sr.s2 ⟨rock.position.x + offsetX, rock.position.y + offsetY⟩
        nextSize asteroids2
    else asteroids2

/-- Fields of the split parent readable through the `rock` reference. -/
inductive ParentField where
  | sizeField
  | scaleField
  | positionField
deriving DecidableEq, Repr

/-- Statement-order events of one `splitAsteroid` call. -/
inductive SplitEvent where
  | readParent (f : ParentField)
  | releaseShapeHandle
  | eraseParent
  | spawnChildCall
deriving DecidableEq, Repr

/-- The tail of the `splitAsteroid` event trace after the size dispatch
(main.cpp lines 390–407): release the two graphics handles
(`glDeleteVertexArrays`, `glDeleteBuffers`), erase the parent from the
vector, then for each loop iteration whose cap check passed, read
`rock.scale` (for `offsetX` and `offsetY`) and `rock.position` (for
`spawnPos`) and call `spawnNewAsteroid`.  `canSpawn1`/`canSpawn2` are the
values of `asteroids.size() < MAX_ASTEROIDS` at the two iterations. -/
def splitTraceTail (canSpawn1 canSpawn2 : Bool) : List SplitEvent :=
  [.releaseShapeHandle, .releaseShapeHandle, .eraseParent] ++
  (if canSpawn1 then
    [.readParent .scaleField, .readParent .scaleField,
     .readParent .positionField, .spawnChildCall] else []) ++
  (if canSpawn2 then
    [.readParent .scaleField, .readParent .scaleField,
     .readParent .positionField, .spawnChildCall] else [])

/-- Statement-order event trace of `splitAsteroid` (main.cpp lines 383–408),
recording every read of the parent through the `rock` reference relative to
the erase of the parent from the vector.  The size dispatch reads
`rock.size` once for `LARGE` and twice otherwise (the `else if`); a `SMALL`
parent returns before any mutation. -/
def splitAsteroidTrace (sz : AsteroidSize) (canSpawn1 canSpawn2 : Bool) :
    List SplitEvent :=
  match sz with
  | LARGE => .readParent .sizeField :: splitTraceTail canSpawn1 canSpawn2
  | MEDIUM => .readParent .sizeField :: .readParent .sizeField ::
      splitTraceTail canSpawn1 canSpawn2
  | SMALL => [.readParent .sizeField, .readParent .sizeField]

/-- The four discrete boolean input intents sampled once per frame
(`glfwGetKey` checks in `processInput`): rotate left, rotate right, thrust,
fire. -/
structure Inputs where
  left : Bool
  right : Bool
  up : Bool
  space : Bool
deriving DecidableEq, Repr

/-- The global simulation state owned by the game loop (main.cpp lines
57, 74–80, 108, 117). -/
structure GameState where
  player : Ship
  asteroids : List Asteroid
  bullets : List Bullet
  bulletCooldown : ℚ
  isGameOver : Bool
  isThrusting : Bool
  asteroidSpawnTimer : ℚ
  currentSpawnRate : ℚ
deriving DecidableEq, Repr

/-- The initial global state: default ship, empty collections, zero timers,
`currentSpawnRate = INITIAL_SPAWN_RATE`. -/
def initState : GameState :=
  { player := initShip, asteroids := [], bullets := []
    bulletCooldown := 0, isGameOver := false, isThrusting := false
    asteroidSpawnTimer := 0, currentSpawnRate := INITIAL_SPAWN_RATE }

/-- `processInput` (main.cpp lines 417–472), parameterised by the facing
oracle `facing`, which models the transcendental
`(cos(rotation + pi/2), sin(rotation + pi/2))` of lines 432–436 evaluated at
the post-wrap rotation.  Rotation keys and the `fmod` wrap come first, then
the thrust update of the velocity, then the cooldown-gated fire: the new
bullet spawns `radius * 1.5` ahead of the ship along the facing direction
and inherits the ship's (post-thrust) velocity. -/
def processInput (facing : ℚ → Vec2) (inp : Inputs) (d : ℚ) (st : GameState) :
    GameState :=
  let rot := rotationAfterInput inp.left inp.right st.player.rotation d
  let dir := facing rot
  let vel : Vec2 :=
    if inp.up then
      ⟨st.player.velocity.x + dir.x * THRUST_SPEED * d,
       st.player.velocity.y + dir.y * THRUST_SPEED * d⟩
    else st.player.velocity
  let player := { st.player with rotation := rot, velocity := vel }
  if inp.space = true ∧ st.bulletCooldown ≤ 0 then
    let spawnDistance := player.radius * (15/10)
    let bpos : Vec2 := ⟨player.position.x + dir.x * spawnDistance,
                        player.position.y + dir.y * spawnDistance⟩
    let bvel : Vec2 := ⟨dir.x * BULLET_SPEED + vel.x, dir.y * BULLET_SPEED + vel.y⟩
    { st with player := player, isThrusting := inp.up
              bullets := st.bullets ++ [mkBullet bpos bvel]
              bulletCooldown := FIRE_RATE }
  else
    { st with player := player, isThrusting := inp.up }

/-- The spawn-interval update applied when a periodic spawn fires
(main.cpp line 637): `max(MIN_SPAWN_RATE, currentSpawnRate - 0.1f)`. -/
def spawnRateUpdate (r : ℚ) : ℚ :=
  max MIN_SPAWN_RATE (r - 1/10)

/-- The spawn-interval after `k` spawn events of one session (starting from
`INITIAL_SPAWN_RATE`). -/
def rateIter : ℕ → ℚ
  | 0 => INITIAL_SPAWN_RATE
  | k + 1 => spawnRateUpdate (rateIter k)

/-- The inner bullet scan of the bullet–asteroid pass (main.cpp lines
687–696): walk the bullet vector in forward order; erase the first bullet
whose circle overlaps the asteroid and stop, reporting a hit; otherwise keep
the bullet and continue. -/
def scanBullets (a : Asteroid) : List Bullet → List Bullet × Bool
  | [] => ([], false)
  | b :: rest =>
    if checkCollision a.position a.radius b.position b.radius then (rest, true)
    else
      let r := scanBullets a rest
      (b :: r.1, r.2)

/-- The `if (bulletHit)` block of the pass (main.cpp lines 698–709): a
`SMALL` asteroid is destroyed outright (handles released, element erased);
any other size is split via `splitAsteroid(asteroids[index], index)`. -/
def resolveHit (sr : SplitRand) (index : ℕ) (asteroids : List Asteroid) :
    List Asteroid :=
  if (asteroids.getD index defaultAsteroid).size = SMALL then
    asteroids.eraseIdx index
  else
    splitAsteroid sr (asteroids.getD index defaultAsteroid) index asteroids

/-- The bullet–asteroid collision pass (main.cpp lines 683–710):
`for (size_t i = asteroids.size(); i > 0; --i)` with `index = i - 1`, i.e.
reverse insertion order over the asteroids present at pass entry.  `rngs k`
supplies the rand draws of the `k`-th `splitAsteroid` call of the pass.

The third component instruments the pass with the list of asteroid values
that were collision-tested, in processing order; it carries no information
back into the first two components. -/
def bulletPassLoop (rngs : ℕ → SplitRand) :
    ℕ → ℕ → List Asteroid → List Bullet →
    List Asteroid × List Bullet × List Asteroid
  | _, 0, asteroids, bullets => (asteroids, bullets, [])
  | k, j + 1, asteroids, bullets =>
    let a := asteroids.getD j defaultAsteroid
    let s := scanBullets a bullets
    let asteroids2 := if s.2 then resolveHit (rngs k) j asteroids else asteroids
    let k2 := if s.2 ∧ a.size ≠ SMALL then k + 1 else k
    let r := bulletPassLoop rngs k2 j asteroids2 s.1
    (r.1, r.2.1, a :: r.2.2)

/-- The bullet–asteroid pass as run by the frame: the loop entered with
`i = asteroids.size()`. -/
def bulletPass (rngs : ℕ → SplitRand) (asteroids : List Asteroid)
    (bullets : List Bullet) : List Asteroid × List Bullet :=
  let r := bulletPassLoop rngs 0 asteroids.length asteroids bullets
  (r.1, r.2.1)

/-- The per-frame external inputs and oracles: the sampled key intents, the
frame delta reported by the clock, the facing oracle for the ship direction,
and the rand-draw oracles for the periodic spawn and for the splits of the
collision pass. -/
structure FrameInput where
  inputs : Inputs
  delta : ℚ
  facing : ℚ → Vec2
  spawnRng : SpawnRand
  splitRngs : ℕ → SplitRand

/-- The body of the `if (!isGameOver)` block of the game loop (main.cpp
lines 630–711): run the spawner, the physics integrator for ship /
asteroids / bullets, the lethal ship–asteroid check, and the bullet–asteroid
pass.  Note the source sets `isGameOver` *inside* this block, so the bullet
pass still runs on the frame the ship dies; the next frame skips the whole
block. -/
def runSim (fin : FrameInput) (st : GameState) : GameState :=
  let timer := st.asteroidSpawnTimer - fin.delta
  let spawned :=
    if timer ≤ 0 ∧ st.asteroids.length < MAX_ASTEROIDS then
      (spawnNewAsteroid fin.spawnRng ⟨0, 0⟩ LARGE st.asteroids,
       spawnRateUpdate st.currentSpawnRate,
       spawnRateUpdate st.currentSpawnRate)
    else (st.asteroids, st.currentSpawnRate, timer)
  let player := shipPhysicsUpdate st.player fin.delta
  let asteroids := spawned.1.map (asteroidPhysicsUpdate fin.delta)
  let bullets := stepBullets fin.delta st.bullets
  let over := asteroids.any fun a =>
    checkCollision player.position player.radius a.position a.radius
  let passed := bulletPass fin.splitRngs asteroids bullets
  { st with player := player, asteroids := passed.1, bullets := passed.2
            asteroidSpawnTimer := spawned.2.2, currentSpawnRate := spawned.2.1
            isGameOver := over }

/-- One iteration of the game loop (main.cpp lines 619–711), state part
only: decrement the fire cooldown (always), process input (always), and —
only while the game is not over — run the simulation block `runSim`. -/
def frame (fin : FrameInput) (st : GameState) : GameState :=
  let st := { st with bulletCooldown := st.bulletCooldown - fin.delta }
  let st := processInput fin.facing fin.inputs fin.delta st
  if st.isGameOver then st else runSim fin st

/-- The read-only per-frame snapshot handed to the renderer (main.cpp lines
713–811): the ship (drawn only while the game is not over), the thrust
flame (drawn only while thrusting and not over), every asteroid's pose /
scale / colour, and every bullet's position. -/
structure RenderSnapshot where
  ship : Option (Vec2 × ℚ × ℚ)
  thrustFlame : Bool
  asteroidsDrawn : List (Vec2 × ℚ × ℚ × Vec3)
  bulletsDrawn : List Vec2
deriving DecidableEq, Repr

/-- Build the render snapshot from the state (main.cpp lines 726–809). -/
def renderSnapshot (st : GameState) : RenderSnapshot :=
  { ship := if st.isGameOver then none
            else some (st.player.position, st.player.rotation, st.player.scale)
    thrustFlame := st.isThrusting && !st.isGameOver
    asteroidsDrawn := st.asteroids.map fun a => (a.position, a.rotation, a.scale, a.color)
    bulletsDrawn := st.bullets.map fun b => b.position }

-- ======================= concrete fixtures for closed statements ==========

/-- A concrete spawn-draw oracle. -/
def sr0 : SpawnRand :=
  { rRotSpeed := 0, colorIdx := 0, splitDir := ⟨1, 0⟩, rSplitSpeed := 0
    rSide := 0, rEdgePos := 1/2, aimDir := ⟨0, -1⟩, rEdgeSpeed := 0 }

/-- A concrete split-draw oracle. -/
def splitR0 : SplitRand :=
  { off1x := 1/2, off1y := 1/2, off2x := 1/2, off2y := 1/2, s1 := sr0, s2 := sr0 }

/-- A concrete split-draw oracle stream. -/
def rngs0 : ℕ → SplitRand := fun _ => splitR0

/-- A concrete facing oracle (the ship pointing along +y). -/
def facing0 : ℚ → Vec2 := fun _ => ⟨0, 1⟩

/-- A ship sitting exactly on the x = 1 wrap boundary, at rest. -/
def shipAtBound : Ship :=
  { position := ⟨1, 0⟩, velocity := ⟨0, 0⟩, rotation := 0
    scale := getScaleFactor SMALL, radius := getRadiusFactor SMALL }

/-- The rotate-right-only input intent. -/
def inpRight : Inputs := { left := false, right := true, up := false, space := false }

-- ======================= claim theorems ===================================

/-- C1: the claim says no field of an asteroid is read after its removal in
the bullet–asteroid pass; in the source, `splitAsteroid` erases
`asteroids[index]` (trace position 3 for a LARGE parent) and *then* reads
`rock.scale` and `rock.position` through the reference bound to that erased
element (trace positions 4–6 and 8–10) whenever a child's cap check passes.
This exhibits the read-after-erase, refuting the "prevented by
construction" contract. -/
theorem splitAsteroid_stale_read_after_erase :
    (splitAsteroidTrace LARGE true true)[3]? = some SplitEvent.eraseParent
  ∧ (splitAsteroidTrace LARGE true true)[6]?
      = some (SplitEvent.readParent ParentField.positionField)
  ∧ (3 : ℕ) < 6 := by
  decide

/-- C2 counterexample: a ship at rest exactly on the wrap boundary `x = 1`
stays at `x = 1` after one integrator step — the wrapped coordinate does not
become the opposite bound `-1`, because the wrap comparisons are strict. -/
theorem wrap_at_boundary_counterexample :
    (shipPhysicsUpdate shipAtBound 1).position.x = 1
  ∧ (shipPhysicsUpdate shipAtBound 1).position.x ≠ -1 := by
  have h : (shipPhysicsUpdate shipAtBound 1).position.x = 1 := by
    norm_num [shipPhysicsUpdate, wrapAxis, shipAtBound, FRICTION]
  exact ⟨h, by rw [h]; norm_num⟩

/-- C2 (amended): the integrator wraps each axis independently, applied to
the post-update coordinate; a post-update coordinate strictly beyond a
bound becomes the opposite bound, a coordinate exactly at `±1` (or inside)
is left unchanged, and the wrapped coordinate always lies in `[-1, 1]`. -/
theorem wrap_after_update (s : Ship) (a : Asteroid) (d : ℚ) :
    (shipPhysicsUpdate s d).position.x
        = wrapAxis (s.position.x + s.velocity.x * FRICTION * d)
  ∧ (shipPhysicsUpdate s d).position.y
        = wrapAxis (s.position.y + s.velocity.y * FRICTION * d)
  ∧ (asteroidPhysicsUpdate d a).position.x
        = wrapAxis (a.position.x + a.velocity.x * d)
  ∧ (asteroidPhysicsUpdate d a).position.y
        = wrapAxis (a.position.y + a.velocity.y * d)
  ∧ (∀ u : ℚ, 1 < u → wrapAxis u = -1)
  ∧ (∀ u : ℚ, u < -1 → wrapAxis u = 1)
  ∧ (∀ u : ℚ, -1 ≤ u → u ≤ 1 → wrapAxis u = u)
  ∧ (∀ u : ℚ, -1 ≤ wrapAxis u ∧ wrapAxis u ≤ 1) := by
  refine ⟨rfl, rfl, rfl, rfl, ?_, ?_, ?_, ?_⟩
  · intro u hu; simp [wrapAxis, hu]
  · intro u hu
    have h1 : ¬ (1 < u) := by linarith
    simp [wrapAxis, hu, h1]
  · intro u h1 h2
    have h3 : ¬ (1 < u) := by linarith
    have h4 : ¬ (u < -1) := by linarith
    simp [wrapAxis, h3, h4]
  · intro u
    unfold wrapAxis
    split_ifs with h1 h2
    · constructor <;> norm_num
    · constructor <;> norm_num
    · constructor <;> linarith

/-- Witness for the amended C2 theorem at concrete inputs. -/
theorem wrap_after_update_witness :
    wrapAxis (101/100) = -1 ∧ wrapAxis (-(101/100)) = 1 ∧ wrapAxis (1/2) = 1/2 :=
  ⟨(wrap_after_update shipAtBound defaultAsteroid 0).2.2.2.2.1 _ (by norm_num),
   (wrap_after_update shipAtBound defaultAsteroid 0).2.2.2.2.2.1 _ (by norm_num),
   (wrap_after_update shipAtBound defaultAsteroid 0).2.2.2.2.2.2.1 _
     (by norm_num) (by norm_num)⟩

/-- C `fmod` with a positive divisor: the result lies strictly between `-y`
and `y` and keeps the sign of the dividend. -/
theorem ratFmod_bounds (x y : ℚ) (hy : 0 < y) :
    -y < ratFmod x y ∧ ratFmod x y < y
  ∧ (0 ≤ x → 0 ≤ ratFmod x y) ∧ (x ≤ 0 → ratFmod x y ≤ 0) := by
  have hyne : y ≠ 0 := ne_of_gt hy
  have hxq : x / y * y = x := div_mul_cancel₀ x hyne
  unfold ratFmod ratTrunc
  by_cases h : 0 ≤ x / y
  · simp only [h, if_pos]
    have h1 : ((⌊x / y⌋ : ℤ) : ℚ) ≤ x / y := Int.floor_le _
    have h2 : x / y < ((⌊x / y⌋ : ℤ) : ℚ) + 1 := Int.lt_floor_add_one _
    refine ⟨by nlinarith, by nlinarith, fun _ => by nlinarith, fun hx0 => ?_⟩
    have hq0 : x / y ≤ 0 := div_nonpos_of_nonpos_of_nonneg hx0 (le_of_lt hy)
    have hq : x / y = 0 := le_antisymm hq0 h
    have hfl : ⌊x / y⌋ = 0 := by rw [hq]; exact Int.floor_zero
    have hx : x = 0 := by
      have := hxq
      rw [hq, zero_mul] at this
      exact this.symm
    rw [hfl, hx]
    norm_num
  · push_neg at h
    simp only [not_le.mpr h, if_neg, if_false]
    have h1 : x / y ≤ ((⌈x / y⌉ : ℤ) : ℚ) := Int.le_ceil _
    have h2 : ((⌈x / y⌉ : ℤ) : ℚ) < x / y + 1 := Int.ceil_lt_add_one _
    have hx0 : x < 0 := by
      by_contra hc
      push_neg at hc
      exact absurd (div_nonneg hc (le_of_lt hy)) (not_le.mpr h)
    exact ⟨by nlinarith, by nlinarith, fun hge => absurd hge (not_le.mpr hx0),
      fun _ => by nlinarith⟩

/-- The rotation stored back by `processInput` is exactly the wrapped
rotation, in both the firing and the non-firing branch. -/
theorem processInput_player_rotation (facing : ℚ → Vec2) (inp : Inputs) (d : ℚ)
    (st : GameState) :
    (processInput facing inp d st).player.rotation
      = rotationAfterInput inp.left inp.right st.player.rotation d := by
  by_cases hs : inp.space = true ∧ st.bulletCooldown ≤ 0 <;>
    simp [processInput, hs]

/-- `fmod` is the identity on a nonpositive dividend strictly above `-y`. -/
theorem ratFmod_of_neg_small (x y : ℚ) (hy : 0 < y) (h1 : -y < x) (h2 : x ≤ 0) :
    ratFmod x y = x := by
  have hq2 : x / y ≤ 0 := div_nonpos_of_nonpos_of_nonneg h2 hy.le
  rcases lt_or_eq_of_le hq2 with hlt | heq
  · have hq1 : (-1 : ℚ) < x / y := by
      rw [lt_div_iff₀ hy]; linarith
    have hceil : ⌈x / y⌉ = 0 := by
      rw [Int.ceil_eq_iff]
      · push_cast; constructor <;> linarith
    unfold ratFmod ratTrunc
    rw [if_neg (not_le.mpr hlt), hceil]
    push_cast; ring
  · have hx0 : x = 0 := by
      rcases div_eq_zero_iff.mp heq with h | h
      · exact h
      · exact absurd h (ne_of_gt hy)
    simp [ratFmod, ratTrunc, hx0]

/-- C3 counterexample: from rotation `0`, holding rotate-right for a frame
with `delta = 1/4` drives the rotation to `-1/2`; `fmod` keeps the sign of
the dividend, so after the per-frame wrap the rotation is `-1/2`, which does
not lie in `[0, 2π)`. -/
theorem rotation_wrap_negative_counterexample :
    (processInput facing0 inpRight (1/4) initState).player.rotation = -(1/2)
  ∧ ¬ (0 ≤ (processInput facing0 inpRight (1/4) initState).player.rotation) := by
  have hr : (processInput facing0 inpRight (1/4) initState).player.rotation = -(1/2) := by
    rw [processInput_player_rotation]
    have hstep : rotationAfterInput inpRight.left inpRight.right
        initState.player.rotation (1/4) = ratFmod (-(1/2)) TWO_PI := by
      norm_num [rotationAfterInput, inpRight, initState, initShip, ROTATION_SPEED]
    rw [hstep]
    exact ratFmod_of_neg_small _ _ (by norm_num [TWO_PI]) (by norm_num [TWO_PI])
      (by norm_num)
  exact ⟨hr, by rw [hr]; norm_num⟩

/-- C3 (amended): after input is applied each frame, the ship's rotation is
reduced with C `fmod` by `2π`, which preserves the dividend's sign: the
wrapped rotation always lies in the open interval `(-2π, 2π)`; it is
nonnegative whenever the pre-wrap rotation is nonnegative, and nonpositive
whenever the pre-wrap rotation is nonpositive (so rotate-right sequences
that drive the rotation negative leave it in `(-2π, 0]`, not `[0, 2π)`). -/
theorem rotation_fmod_range (left right : Bool) (r d : ℚ)
    (facing : ℚ → Vec2) (inp : Inputs) (st : GameState) :
    (processInput facing inp d st).player.rotation
        = rotationAfterInput inp.left inp.right st.player.rotation d
  ∧ -TWO_PI < rotationAfterInput left right r d
  ∧ rotationAfterInput left right r d < TWO_PI
  ∧ (∀ x : ℚ, 0 ≤ x → 0 ≤ ratFmod x TWO_PI)
  ∧ (∀ x : ℚ, x ≤ 0 → ratFmod x TWO_PI ≤ 0) := by
  have hpi : (0 : ℚ) < TWO_PI := by norm_num [TWO_PI]
  exact ⟨processInput_player_rotation facing inp d st,
    (ratFmod_bounds _ _ hpi).1, (ratFmod_bounds _ _ hpi).2.1,
    fun x hx => (ratFmod_bounds x _ hpi).2.2.1 hx,
    fun x hx => (ratFmod_bounds x _ hpi).2.2.2 hx⟩

/-- Witness for the amended C3 theorem at concrete inputs. -/
theorem rotation_fmod_range_witness :
    (processInput facing0 inpRight (1/4) initState).player.rotation
        = rotationAfterInput false true 0 (1/4)
  ∧ 0 ≤ ratFmod 1 TWO_PI ∧ ratFmod (-1) TWO_PI ≤ 0 :=
  ⟨(rotation_fmod_range false true 0 (1/4) facing0 inpRight initState).1,
   (rotation_fmod_range false true 0 (1/4) facing0 inpRight initState).2.2.2.1 1
     (by norm_num),
   (rotation_fmod_range false true 0 (1/4) facing0 inpRight initState).2.2.2.2 (-1)
     (by norm_num)⟩

-- ======================= frame decomposition helpers ======================

/-- `processInput` never touches the asteroid collection. -/
theorem processInput_asteroids (facing : ℚ → Vec2) (inp : Inputs) (d : ℚ)
    (st : GameState) :
    (processInput facing inp d st).asteroids = st.asteroids := by
  by_cases hs : inp.space = true ∧ st.bulletCooldown ≤ 0 <;>
    simp [processInput, hs]

/-- `processInput` never touches the game-over flag. -/
theorem processInput_isGameOver (facing : ℚ → Vec2) (inp : Inputs) (d : ℚ)
    (st : GameState) :
    (processInput facing inp d st).isGameOver = st.isGameOver := by
  by_cases hs : inp.space = true ∧ st.bulletCooldown ≤ 0 <;>
    simp [processInput, hs]

/-- `processInput` never touches the spawn timer. -/
theorem processInput_spawnTimer (facing : ℚ → Vec2) (inp : Inputs) (d : ℚ)
    (st : GameState) :
    (processInput facing inp d st).asteroidSpawnTimer = st.asteroidSpawnTimer := by
  by_cases hs : inp.space = true ∧ st.bulletCooldown ≤ 0 <;>
    simp [processInput, hs]

/-- `processInput` never touches the spawn interval. -/
theorem processInput_spawnRate (facing : ℚ → Vec2) (inp : Inputs) (d : ℚ)
    (st : GameState) :
    (processInput facing inp d st).currentSpawnRate = st.currentSpawnRate := by
  by_cases hs : inp.space = true ∧ st.bulletCooldown ≤ 0 <;>
    simp [processInput, hs]

/-- On a game-over frame, only the cooldown decrement and input processing
run. -/
theorem frame_of_gameOver (fin : FrameInput) (st : GameState)
    (h : st.isGameOver = true) :
    frame fin st = processInput fin.facing fin.inputs fin.delta
      { st with bulletCooldown := st.bulletCooldown - fin.delta } := by
  have h2 : (processInput fin.facing fin.inputs fin.delta
      { st with bulletCooldown := st.bulletCooldown - fin.delta }).isGameOver = true := by
    rw [processInput_isGameOver]; exact h
  simp [frame, h2]

/-- On a running frame, the simulation block follows input processing. -/
theorem frame_of_running (fin : FrameInput) (st : GameState)
    (h : st.isGameOver = false) :
    frame fin st = runSim fin (processInput fin.facing fin.inputs fin.delta
      { st with bulletCooldown := st.bulletCooldown - fin.delta }) := by
  have h2 : (processInput fin.facing fin.inputs fin.delta
      { st with bulletCooldown := st.bulletCooldown - fin.delta }).isGameOver = false := by
    rw [processInput_isGameOver]; exact h
  simp [frame, h2]

/-- When the spawn condition fails, `runSim` keeps the spawn interval. -/
theorem runSim_spawnRate_of_noSpawn (fin : FrameInput) (st : GameState)
    (h : ¬(st.asteroidSpawnTimer - fin.delta ≤ 0
            ∧ st.asteroids.length < MAX_ASTEROIDS)) :
    (runSim fin st).currentSpawnRate = st.currentSpawnRate := by
  simp only [runSim, if_neg h]

/-- The spawn interval is at least the floor from the first event on. -/
theorem one_le_rateIter : ∀ k : ℕ, MIN_SPAWN_RATE ≤ rateIter k
  | 0 => by norm_num [rateIter, INITIAL_SPAWN_RATE, MIN_SPAWN_RATE]
  | k + 1 => le_max_left _ _

/-- C5: the spawn-interval sequence across spawn events is non-increasing,
bounded below by `MIN_SPAWN_RATE = 1`, and decreases by exactly `0.1` per
spawn event until the floor is reached; a frame in which no spawn event
fires (timer still positive, population at cap, or game over) leaves the
interval unchanged, so the interval only changes on spawn events. -/
theorem spawn_rate_monotone (r : ℚ) (k : ℕ) (fin : FrameInput) (st : GameState) :
    (MIN_SPAWN_RATE ≤ r → spawnRateUpdate r ≤ r)
  ∧ MIN_SPAWN_RATE ≤ spawnRateUpdate r
  ∧ (11/10 ≤ r → spawnRateUpdate r = r - 1/10)
  ∧ rateIter (k + 1) ≤ rateIter k
  ∧ MIN_SPAWN_RATE ≤ rateIter k
  ∧ (st.isGameOver = false →
      ¬(st.asteroidSpawnTimer - fin.delta ≤ 0
          ∧ st.asteroids.length < MAX_ASTEROIDS) →
      (frame fin st).currentSpawnRate = st.currentSpawnRate)
  ∧ (st.isGameOver = true →
      (frame fin st).currentSpawnRate = st.currentSpawnRate) := by
  refine ⟨?_, le_max_left _ _, ?_, ?_, one_le_rateIter k, ?_, ?_⟩
  · intro h
    exact max_le h (by linarith)
  · intro h
    have h1 : MIN_SPAWN_RATE ≤ r - 1/10 := by
      show (1 : ℚ) ≤ r - 1/10
      linarith
    unfold spawnRateUpdate
    exact max_eq_right h1
  · have h1 := one_le_rateIter k
    exact max_le h1 (by linarith)
  · intro hover hcond
    rw [frame_of_running fin st hover]
    rw [runSim_spawnRate_of_noSpawn]
    · rw [processInput_spawnRate]
    · rw [processInput_spawnTimer, processInput_asteroids]
      exact hcond
  · intro hover
    rw [frame_of_gameOver fin st hover, processInput_spawnRate]

/-- Witness for the C5 theorem at concrete inputs. -/
theorem spawn_rate_monotone_witness :
    spawnRateUpdate 5 ≤ 5 ∧ spawnRateUpdate (11/10) = 11/10 - 1/10
  ∧ (frame { inputs := inpRight, delta := 1/10, facing := facing0,
             spawnRng := sr0, splitRngs := rngs0 }
        { initState with asteroidSpawnTimer := 7 }).currentSpawnRate
      = INITIAL_SPAWN_RATE :=
  ⟨(spawn_rate_monotone 5 0 ⟨inpRight, 1, facing0, sr0, rngs0⟩ initState).1
      (by norm_num [MIN_SPAWN_RATE]),
   (spawn_rate_monotone (11/10) 0 ⟨inpRight, 1, facing0, sr0, rngs0⟩ initState).2.2.1
      (by norm_num),
   (spawn_rate_monotone 5 0
      { inputs := inpRight, delta := 1/10, facing := facing0,
        spawnRng := sr0, splitRngs := rngs0 }
      { initState with asteroidSpawnTimer := 7 }).2.2.2.2.2.1
      (by simp [initState]) (by norm_num [initState])⟩

-- ======================= spawner / split structure ========================

/-- The record built by `spawnNewAsteroid` carries the requested size
class. -/
theorem newRockFor_size (rng : SpawnRand) (pos : Vec2) (sz : AsteroidSize) :
    (newRockFor rng pos sz).size = sz := by
  simp [newRockFor]

/-- A spawn attempt at or above the cap returns the collection unchanged. -/
theorem spawnNewAsteroid_of_cap (rng : SpawnRand) (pos : Vec2)
    (sz : AsteroidSize) (asts : List Asteroid)
    (h : MAX_ASTEROIDS ≤ asts.length) :
    spawnNewAsteroid rng pos sz asts = asts := by
  simp [spawnNewAsteroid, h]

/-- A spawn attempt below the cap appends exactly one new rock. -/
theorem spawnNewAsteroid_of_lt (rng : SpawnRand) (pos : Vec2)
    (sz : AsteroidSize) (asts : List Asteroid)
    (h : asts.length < MAX_ASTEROIDS) :
    spawnNewAsteroid rng pos sz asts = asts ++ [newRockFor rng pos sz] := by
  simp [spawnNewAsteroid, not_le.mpr h]

/-- A spawn attempt appends at most one element, and any appended element is
the built rock. -/
theorem spawnNewAsteroid_append (rng : SpawnRand) (pos : Vec2)
    (sz : AsteroidSize) (asts : List Asteroid) :
    ∃ t : List Asteroid, spawnNewAsteroid rng pos sz asts = asts ++ t
      ∧ t.length ≤ 1 ∧ ∀ x ∈ t, x = newRockFor rng pos sz := by
  by_cases h : MAX_ASTEROIDS ≤ asts.length
  · exact ⟨[], by simp [spawnNewAsteroid_of_cap rng pos sz asts h], by simp, by simp⟩
  · exact ⟨[newRockFor rng pos sz],
      spawnNewAsteroid_of_lt rng pos sz asts (not_le.mp h), by simp, by simp⟩

/-- A spawn attempt never pushes the population above the cap. -/
theorem spawnNewAsteroid_length_le (rng : SpawnRand) (pos : Vec2)
    (sz : AsteroidSize) (asts : List Asteroid)
    (h : asts.length ≤ MAX_ASTEROIDS) :
    (spawnNewAsteroid rng pos sz asts).length ≤ MAX_ASTEROIDS := by
  by_cases hc : MAX_ASTEROIDS ≤ asts.length
  · rw [spawnNewAsteroid_of_cap rng pos sz asts hc]; exact h
  · rw [spawnNewAsteroid_of_lt rng pos sz asts (not_le.mp hc)]
    simp only [List.length_append, List.length_singleton]
    omega

/-- Splitting a `SMALL` parent is a no-op of `splitAsteroid` (the source
returns before any mutation; the game instead destroys it in `main`). -/
theorem splitAsteroid_small (sr : SplitRand) (rock : Asteroid) (index : ℕ)
    (asts : List Asteroid) (h : rock.size = SMALL) :
    splitAsteroid sr rock index asts = asts := by
  simp [splitAsteroid, h, nextSizeOf]

/-- The two cap-guarded child spawns at the tail of `splitAsteroid`
(main.cpp lines 398–407), in isolation: they append at most two rocks of the
requested size. -/
theorem guardedSpawn2 (s1 s2 : SpawnRand) (p1 p2 : Vec2) (ns : AsteroidSize)
    (l : List Asteroid) :
    ∃ c : List Asteroid,
      (if (if l.length < MAX_ASTEROIDS then spawnNewAsteroid s1 p1 ns l else l).length
            < MAX_ASTEROIDS
       then spawnNewAsteroid s2 p2 ns
              (if l.length < MAX_ASTEROIDS then spawnNewAsteroid s1 p1 ns l else l)
       else (if l.length < MAX_ASTEROIDS then spawnNewAsteroid s1 p1 ns l else l))
        = l ++ c
      ∧ c.length ≤ 2 ∧ ∀ x ∈ c, x.size = ns := by
  by_cases h1 : l.length < MAX_ASTEROIDS
  · rw [if_pos h1, spawnNewAsteroid_of_lt _ _ _ _ h1]
    by_cases h2 : (l ++ [newRockFor s1 p1 ns]).length < MAX_ASTEROIDS
    · rw [if_pos h2, spawnNewAsteroid_of_lt _ _ _ _ h2]
      refine ⟨[newRockFor s1 p1 ns, newRockFor s2 p2 ns], by simp, by simp, ?_⟩
      intro x hx
      rcases List.mem_pair.mp hx with rfl | rfl <;> exact newRockFor_size _ _ _
    · rw [if_neg h2]
      refine ⟨[newRockFor s1 p1 ns], rfl, by simp, ?_⟩
      intro x hx
      rw [List.mem_singleton.mp hx]
      exact newRockFor_size _ _ _
  · rw [if_neg h1, if_neg h1]
    exact ⟨[], by simp, by simp, by simp⟩

/-- The two cap-guarded child spawns, exact count: below the cap the first
child always fits, and the second fits exactly when one more slot remains. -/
theorem guardedSpawn2_count (s1 s2 : SpawnRand) (p1 p2 : Vec2)
    (ns : AsteroidSize) (l : List Asteroid) (h1 : l.length < MAX_ASTEROIDS) :
    ∃ c : List Asteroid,
      (if (if l.length < MAX_ASTEROIDS then spawnNewAsteroid s1 p1 ns l else l).length
            < MAX_ASTEROIDS
       then spawnNewAsteroid s2 p2 ns
              (if l.length < MAX_ASTEROIDS then spawnNewAsteroid s1 p1 ns l else l)
       else (if l.length < MAX_ASTEROIDS then spawnNewAsteroid s1 p1 ns l else l))
        = l ++ c
      ∧ c.length = (if l.length + 1 < MAX_ASTEROIDS then 2 else 1)
      ∧ ∀ x ∈ c, x.size = ns := by
  rw [if_pos h1, spawnNewAsteroid_of_lt _ _ _ _ h1]
  by_cases h2 : l.length + 1 < MAX_ASTEROIDS
  · have hlt : (l ++ [newRockFor s1 p1 ns]).length < MAX_ASTEROIDS := by
      simpa using h2
    rw [if_pos hlt, spawnNewAsteroid_of_lt _ _ _ _ hlt]
    refine ⟨[newRockFor s1 p1 ns, newRockFor s2 p2 ns], by simp, by simp [h2], ?_⟩
    intro x hx
    rcases List.mem_pair.mp hx with rfl | rfl <;> exact newRockFor_size _ _ _
  · have hge : ¬ (l ++ [newRockFor s1 p1 ns]).length < MAX_ASTEROIDS := by
      simpa using h2
    rw [if_neg hge]
    refine ⟨[newRockFor s1 p1 ns], rfl, by simp [h2], ?_⟩
    intro x hx
    rw [List.mem_singleton.mp hx]
    exact newRockFor_size _ _ _

/-- Splitting a non-`SMALL` parent erases it and appends at most two
children, all of the next-smaller size class. -/
theorem splitAsteroid_structure (sr : SplitRand) (rock : Asteroid)
    (index : ℕ) (asts : List Asteroid) (ns : AsteroidSize)
    (h : nextSizeOf rock.size = some ns) :
    ∃ c : List Asteroid, splitAsteroid sr rock index asts
        = asts.eraseIdx index ++ c
      ∧ c.length ≤ 2 ∧ ∀ x ∈ c, x.size = ns := by
  simp only [splitAsteroid, h]
  exact guardedSpawn2 sr.s1 sr.s2 _ _ ns (asts.eraseIdx index)

/-- Splitting never pushes the population above the cap. -/
theorem splitAsteroid_length_le (sr : SplitRand) (rock : Asteroid)
    (index : ℕ) (asts : List Asteroid) (h : asts.length ≤ MAX_ASTEROIDS) :
    (splitAsteroid sr rock index asts).length ≤ MAX_ASTEROIDS := by
  have he : (asts.eraseIdx index).length ≤ MAX_ASTEROIDS :=
    le_trans (List.length_eraseIdx_le asts index) h
  cases hns : nextSizeOf rock.size with
  | none => simpa only [splitAsteroid, hns] using h
  | some ns =>
    simp only [splitAsteroid, hns]
    by_cases h1 : (asts.eraseIdx index).length < MAX_ASTEROIDS
    · rw [if_pos h1]
      have hs1 := spawnNewAsteroid_length_le sr.s1
        ⟨rock.position.x + (sr.off1x - 1/2) * rock.scale * (5/10),
         rock.position.y + (sr.off1y - 1/2) * rock.scale * (5/10)⟩ ns _ he
      by_cases h2 : (spawnNewAsteroid sr.s1
          ⟨rock.position.x + (sr.off1x - 1/2) * rock.scale * (5/10),
           rock.position.y + (sr.off1y - 1/2) * rock.scale * (5/10)⟩ ns
          (asts.eraseIdx index)).length < MAX_ASTEROIDS
      · rw [if_pos h2]
        exact spawnNewAsteroid_length_le _ _ _ _ hs1
      · rw [if_neg h2]
        exact hs1
    · rw [if_neg h1, if_neg h1]
      exact he

/-- The exact child count of a split under the population invariant: erasing
the parent frees one slot, so the first child always fits; the second child
fits exactly when the prior population was at most 19. -/
theorem splitAsteroid_count (sr : SplitRand) (rock : Asteroid) (index : ℕ)
    (asts : List Asteroid) (ns : AsteroidSize)
    (h : nextSizeOf rock.size = some ns) (hidx : index < asts.length)
    (hcap : asts.length ≤ MAX_ASTEROIDS) :
    ∃ c : List Asteroid, splitAsteroid sr rock index asts
        = asts.eraseIdx index ++ c
      ∧ c.length = (if asts.length ≤ 19 then 2 else 1)
      ∧ ∀ x ∈ c, x.size = ns := by
  have hel : (asts.eraseIdx index).length = asts.length - 1 :=
    List.length_eraseIdx_of_lt hidx
  have h1 : (asts.eraseIdx index).length < MAX_ASTEROIDS := by
    rw [hel]; unfold MAX_ASTEROIDS at hcap ⊢; omega
  simp only [splitAsteroid, h]
  obtain ⟨c, hc, hlen, hsz⟩ := guardedSpawn2_count sr.s1 sr.s2
    ⟨rock.position.x + (sr.off1x - 1/2) * rock.scale * (5/10),
     rock.position.y + (sr.off1y - 1/2) * rock.scale * (5/10)⟩
    ⟨rock.position.x + (sr.off2x - 1/2) * rock.scale * (5/10),
     rock.position.y + (sr.off2y - 1/2) * rock.scale * (5/10)⟩
    ns (asts.eraseIdx index) h1
  refine ⟨c, hc, ?_, hsz⟩
  rw [hlen, hel]
  have hiff : (asts.length - 1 + 1 < MAX_ASTEROIDS) ↔ (asts.length ≤ 19) := by
    unfold MAX_ASTEROIDS
    omega
  simp only [hiff]

/-- Hit resolution never pushes the population above the cap. -/
theorem resolveHit_length_le (sr : SplitRand) (index : ℕ)
    (asts : List Asteroid) (h : asts.length ≤ MAX_ASTEROIDS) :
    (resolveHit sr index asts).length ≤ MAX_ASTEROIDS := by
  unfold resolveHit
  split_ifs with hs
  · exact le_trans (List.length_eraseIdx_le _ _) h
  · exact splitAsteroid_length_le _ _ _ _ h

/-- The collision-pass loop never pushes the population above the cap. -/
theorem bulletPassLoop_length_le (rngs : ℕ → SplitRand) :
    ∀ (j k : ℕ) (asts : List Asteroid) (bs : List Bullet),
    asts.length ≤ MAX_ASTEROIDS →
    (bulletPassLoop rngs k j asts bs).1.length ≤ MAX_ASTEROIDS := by
  intro j
  induction j with
  | zero =>
    intro k asts bs h
    simpa [bulletPassLoop] using h
  | succ j ih =>
    intro k asts bs h
    simp only [bulletPassLoop]
    apply ih
    split_ifs with hs
    · exact resolveHit_length_le _ _ _ h
    · exact h

/-- The simulation block never pushes the population above the cap. -/
theorem runSim_asteroids_length_le (fin : FrameInput) (st : GameState)
    (h : st.asteroids.length ≤ MAX_ASTEROIDS) :
    (runSim fin st).asteroids.length ≤ MAX_ASTEROIDS := by
  simp only [runSim, bulletPass]
  apply bulletPassLoop_length_le
  rw [List.length_map]
  split_ifs with hsp
  · exact spawnNewAsteroid_length_le _ _ _ _ h
  · exact h

/-- One frame never pushes the population above the cap. -/
theorem frame_asteroids_length_le (fin : FrameInput) (st : GameState)
    (h : st.asteroids.length ≤ MAX_ASTEROIDS) :
    (frame fin st).asteroids.length ≤ MAX_ASTEROIDS := by
  cases hover : st.isGameOver
  · rw [frame_of_running fin st hover]
    apply runSim_asteroids_length_le
    rw [processInput_asteroids]
    simpa using h
  · rw [frame_of_gameOver fin st hover, processInput_asteroids]
    simpa using h

/-- Any number of frames from the initial state keeps the population within
the cap. -/
theorem foldFrames_length_le (fins : List FrameInput) :
    ((fins.foldl (fun s f => frame f s) initState).asteroids.length
      ≤ MAX_ASTEROIDS) := by
  have h : ∀ (l : List FrameInput) (st : GameState),
      st.asteroids.length ≤ MAX_ASTEROIDS →
      ((l.foldl (fun s f => frame f s) st).asteroids.length ≤ MAX_ASTEROIDS) := by
    intro l
    induction l with
    | nil => intro st h; simpa using h
    | cons f rest ih =>
      intro st h
      exact ih _ (frame_asteroids_length_le f st h)
  exact h fins initState (by simp [initState])

/-- C6: the population cap applies uniformly to every spawn path: a spawn
attempt with the population at (or above) `MAX_ASTEROIDS = 20` returns the
collection unchanged — silently dropped, no error, no retry (the function
just returns) — and the periodic-spawn, split-children and whole-frame paths
all preserve `population ≤ 20`; starting from the initial (empty) state the
population never exceeds 20. -/
theorem population_cap_uniform (rng : SpawnRand) (pos : Vec2)
    (sz : AsteroidSize) (sr : SplitRand) (rock : Asteroid) (index : ℕ)
    (asts : List Asteroid) (fin : FrameInput) (st : GameState)
    (fins : List FrameInput) :
    (MAX_ASTEROIDS ≤ asts.length → spawnNewAsteroid rng pos sz asts = asts)
  ∧ (asts.length ≤ MAX_ASTEROIDS →
      (spawnNewAsteroid rng pos sz asts).length ≤ MAX_ASTEROIDS)
  ∧ (asts.length ≤ MAX_ASTEROIDS →
      (splitAsteroid sr rock index asts).length ≤ MAX_ASTEROIDS)
  ∧ (st.asteroids.length ≤ MAX_ASTEROIDS →
      (frame fin st).asteroids.length ≤ MAX_ASTEROIDS)
  ∧ (fins.foldl (fun s f => frame f s) initState).asteroids.length
      ≤ MAX_ASTEROIDS :=
  ⟨spawnNewAsteroid_of_cap rng pos sz asts,
   spawnNewAsteroid_length_le rng pos sz asts,
   splitAsteroid_length_le sr rock index asts,
   frame_asteroids_length_le fin st,
   foldFrames_length_le fins⟩

/-- A concrete frame input used by witnesses. -/
def fin0 : FrameInput :=
  { inputs := inpRight, delta := 1/10, facing := facing0
    spawnRng := sr0, splitRngs := rngs0 }

/-- Witness for the C6 theorem at concrete inputs. -/
theorem population_cap_uniform_witness :
    spawnNewAsteroid sr0 ⟨0, 0⟩ LARGE (List.replicate 20 defaultAsteroid)
        = List.replicate 20 defaultAsteroid
  ∧ (spawnNewAsteroid sr0 ⟨0, 0⟩ LARGE []).length ≤ MAX_ASTEROIDS
  ∧ (frame fin0 initState).asteroids.length ≤ MAX_ASTEROIDS :=
  ⟨(population_cap_uniform sr0 ⟨0, 0⟩ LARGE splitR0 defaultAsteroid 0
      (List.replicate 20 defaultAsteroid) fin0 initState []).1
      (by simp [MAX_ASTEROIDS]),
   (population_cap_uniform sr0 ⟨0, 0⟩ LARGE splitR0 defaultAsteroid 0
      [] fin0 initState []).2.1 (by simp),
   (population_cap_uniform sr0 ⟨0, 0⟩ LARGE splitR0 defaultAsteroid 0
      [] fin0 initState []).2.2.2.1 (by simp [initState])⟩

/-- C7 (amended): when an asteroid at a valid index is hit under the
population invariant: a `SMALL` asteroid is destroyed outright (erased, no
children); a non-`SMALL` asteroid is split into children of the next-smaller
size class, exactly 2 of them when the prior population is at most 19 and
exactly 1 when the population is at the cap of 20 (erasing the parent frees
one slot, so the first child always fits and only the second is dropped);
the population after one hit is `prior - 1 + children` with at most 2
children added. -/
theorem hit_resolution_count (sr : SplitRand) (index : ℕ)
    (asts : List Asteroid) (hidx : index < asts.length)
    (hcap : asts.length ≤ MAX_ASTEROIDS) :
    ((asts.getD index defaultAsteroid).size = SMALL →
        resolveHit sr index asts = asts.eraseIdx index
      ∧ (resolveHit sr index asts).length = asts.length - 1)
  ∧ ((asts.getD index defaultAsteroid).size ≠ SMALL →
      ∃ ns, nextSizeOf (asts.getD index defaultAsteroid).size = some ns
      ∧ ∃ c : List Asteroid,
          resolveHit sr index asts = asts.eraseIdx index ++ c
        ∧ c.length = (if asts.length ≤ 19 then 2 else 1)
        ∧ c.length ≤ 2
        ∧ (∀ x ∈ c, x.size = ns)
        ∧ (resolveHit sr index asts).length = asts.length - 1 + c.length) := by
  constructor
  · intro h
    have h2 : resolveHit sr index asts = asts.eraseIdx index := by
      unfold resolveHit
      rw [if_pos h]
    exact ⟨h2, by rw [h2, List.length_eraseIdx_of_lt hidx]⟩
  · intro h
    obtain ⟨ns, hns⟩ : ∃ ns, nextSizeOf (asts.getD index defaultAsteroid).size
        = some ns := by
      cases hsz : (asts.getD index defaultAsteroid).size
      · exact absurd hsz h
      · exact ⟨SMALL, rfl⟩
      · exact ⟨MEDIUM, rfl⟩
    have hrh : resolveHit sr index asts
        = splitAsteroid sr (asts.getD index defaultAsteroid) index asts := by
      unfold resolveHit
      rw [if_neg h]
    obtain ⟨c, hc, hlen, hsz2⟩ := splitAsteroid_count sr _ index asts ns hns hidx hcap
    refine ⟨ns, hns, c, by rw [hrh, hc], hlen, ?_, hsz2, ?_⟩
    · rw [hlen]; split_ifs <;> norm_num
    · rw [hrh, hc, List.length_append, List.length_eraseIdx_of_lt hidx]

/-- Witness for the amended C7 theorem at a concrete input: one LARGE
asteroid hit below the cap → two MEDIUM children, population 2. -/
theorem hit_resolution_count_witness :
    (resolveHit splitR0 0 [defaultAsteroid]).length = 2 := by
  obtain ⟨ns, hns, c, hc, hlen, hle, hsz, hfin⟩ :=
    (hit_resolution_count splitR0 0 [defaultAsteroid] (by norm_num)
      (by simp [MAX_ASTEROIDS])).2 (by decide)
  rw [hfin, hlen]
  norm_num

/-- C7 counterexample: the claim says a split yields 0 children when the
population cap is reached; in the code, hitting a LARGE asteroid with the
population at the cap of 20 erases the parent (freeing a slot) and then
spawns one child, so the population stays at 20 — not at 19 as zero children
would give. -/
theorem split_at_cap_counterexample :
    (resolveHit splitR0 0 (List.replicate 20 defaultAsteroid)).length = 20
  ∧ (resolveHit splitR0 0 (List.replicate 20 defaultAsteroid)).length
      ≠ (List.replicate 20 (defaultAsteroid : Asteroid)).length - 1 := by
  have hsz : ((List.replicate 20 defaultAsteroid).getD 0 defaultAsteroid).size
      ≠ SMALL := by decide
  have hns : nextSizeOf ((List.replicate 20 defaultAsteroid).getD 0
      defaultAsteroid).size = some MEDIUM := by decide
  have hrh : resolveHit splitR0 0 (List.replicate 20 defaultAsteroid)
      = splitAsteroid splitR0
          ((List.replicate 20 defaultAsteroid).getD 0 defaultAsteroid) 0
          (List.replicate 20 defaultAsteroid) := by
    unfold resolveHit
    rw [if_neg hsz]
  obtain ⟨c, hc, hlen, _⟩ := splitAsteroid_count splitR0 _ 0
    (List.replicate 20 defaultAsteroid) MEDIUM hns (by simp)
    (by simp [MAX_ASTEROIDS])
  have hfin : (resolveHit splitR0 0 (List.replicate 20 defaultAsteroid)).length
      = 20 := by
    rw [hrh, hc, List.length_append, List.length_eraseIdx_of_lt (by simp), hlen]
    norm_num
  exact ⟨hfin, by rw [hfin]; simp⟩

/-- C10: `spawnNewAsteroid` dispatches on the supplied position being
exactly the world origin, not on the caller's intent: for *any* requested
size class (including the MEDIUM/SMALL sizes that only the split path
requests), a spawn at position `(0,0)` takes the off-screen branch — the new
rock is placed on a screen edge (one coordinate exactly `±1.1`, the other
within `[-1,1] ⊆ [-1.1,1.1]`), and its velocity is the centre-aim direction
scaled by a speed in `[0.1, 0.3]` — instead of the split placement (position
near the parent, speed in `[0.3, 0.7]`). -/
theorem spawn_origin_dispatch (rng : SpawnRand) (sz : AsteroidSize)
    (asts : List Asteroid) (hlen : asts.length < MAX_ASTEROIDS)
    (hedge0 : 0 ≤ rng.rEdgePos) (hedge1 : rng.rEdgePos ≤ 1)
    (hspeed0 : 0 ≤ rng.rEdgeSpeed) (hspeed1 : rng.rEdgeSpeed ≤ 1) :
    spawnNewAsteroid rng ⟨0, 0⟩ sz asts = asts ++ [newRockFor rng ⟨0, 0⟩ sz]
  ∧ (|(newRockFor rng ⟨0, 0⟩ sz).position.x| = 11/10
      ∨ |(newRockFor rng ⟨0, 0⟩ sz).position.y| = 11/10)
  ∧ |(newRockFor rng ⟨0, 0⟩ sz).position.x| ≤ 11/10
  ∧ |(newRockFor rng ⟨0, 0⟩ sz).position.y| ≤ 11/10
  ∧ (newRockFor rng ⟨0, 0⟩ sz).velocity
      = ⟨rng.aimDir.x * (1/10 + rng.rEdgeSpeed * (2/10)),
         rng.aimDir.y * (1/10 + rng.rEdgeSpeed * (2/10))⟩
  ∧ 1/10 ≤ 1/10 + rng.rEdgeSpeed * (2/10)
  ∧ 1/10 + rng.rEdgeSpeed * (2/10) ≤ 3/10
  ∧ (newRockFor rng ⟨0, 0⟩ sz).size = sz := by
  have hpos : (newRockFor rng ⟨0, 0⟩ sz).position
      = (if rng.rSide * 4 < 1 then (⟨rng.rEdgePos * 2 - 1, 11/10⟩ : Vec2)
         else if rng.rSide * 4 < 2 then ⟨rng.rEdgePos * 2 - 1, -(11/10)⟩
         else if rng.rSide * 4 < 3 then ⟨-(11/10), rng.rEdgePos * 2 - 1⟩
         else ⟨11/10, rng.rEdgePos * 2 - 1⟩) := by
    simp [newRockFor]
  have hvel : (newRockFor rng ⟨0, 0⟩ sz).velocity
      = ⟨rng.aimDir.x * (1/10 + rng.rEdgeSpeed * (2/10)),
         rng.aimDir.y * (1/10 + rng.rEdgeSpeed * (2/10))⟩ := by
    simp [newRockFor]
  have habs1 : |(11/10 : ℚ)| = 11/10 := abs_of_pos (by norm_num)
  have habs2 : |(-(11/10) : ℚ)| = 11/10 := by rw [abs_neg, habs1]
  have hedgeabs : |rng.rEdgePos * 2 - 1| ≤ 11/10 := by
    rw [abs_le]; constructor <;> linarith
  have hsp0 : (0 : ℚ) ≤ rng.rEdgeSpeed * (2/10) :=
    mul_nonneg hspeed0 (by norm_num)
  have hsp1 : rng.rEdgeSpeed * (2/10) ≤ 2/10 := by nlinarith
  refine ⟨spawnNewAsteroid_of_lt rng ⟨0, 0⟩ sz asts hlen, ?_, ?_, ?_, hvel,
    by linarith, by linarith, newRockFor_size rng ⟨0, 0⟩ sz⟩
  · rw [hpos]
    split_ifs
    · exact Or.inr habs1
    · exact Or.inr habs2
    · exact Or.inl habs2
    · exact Or.inl habs1
  · rw [hpos]
    split_ifs
    · exact hedgeabs
    · exact hedgeabs
    · exact le_of_eq habs2
    · exact le_of_eq habs1
  · rw [hpos]
    split_ifs
    · exact le_of_eq habs1
    · exact le_of_eq habs2
    · exact hedgeabs
    · exact hedgeabs

/-- Witness for the C10 theorem at a concrete input: a MEDIUM-size spawn at
the origin (as a split event landing exactly at the origin would request)
still gets the edge placement. -/
theorem spawn_origin_dispatch_witness :
    spawnNewAsteroid sr0 ⟨0, 0⟩ MEDIUM [] = [newRockFor sr0 ⟨0, 0⟩ MEDIUM]
  ∧ (|(newRockFor sr0 ⟨0, 0⟩ MEDIUM).position.x| = 11/10
      ∨ |(newRockFor sr0 ⟨0, 0⟩ MEDIUM).position.y| = 11/10)
  ∧ (newRockFor sr0 ⟨0, 0⟩ MEDIUM).size = MEDIUM := by
  have h := spawn_origin_dispatch sr0 MEDIUM [] (by simp [MAX_ASTEROIDS])
    (by norm_num [sr0]) (by norm_num [sr0])
    (by norm_num [sr0]) (by norm_num [sr0])
  exact ⟨by simpa using h.1, h.2.1, h.2.2.2.2.2.2.2⟩

/-- An empty bullet list stays empty under the integrator. -/
theorem foldl_stepBullets_nil (ds : List ℚ) :
    ds.foldl (fun bs d => stepBullets d bs) [] = [] := by
  induction ds with
  | nil => rfl
  | cons d rest ih => simpa [stepBullets] using ih

/-- One integrator step on a single bullet: keep it exactly when the
post-step removal condition fails. -/
theorem stepBullets_singleton (d : ℚ) (b : Bullet) :
    stepBullets d [b]
      = if bulletExpired (bulletStep d b) then [] else [bulletStep d b] := by
  cases hb : bulletExpired (bulletStep d b) <;>
    simp [stepBullets, List.filter, hb]

/-- Survival of a single bullet under the integrator, by induction over the
frame deltas: with nonnegative deltas and the trajectory inside the extended
bounds, the bullet survives the whole delta list exactly when the cumulative
delta stays below its remaining lifetime. -/
theorem bullet_survival_aux :
    ∀ (ds : List ℚ) (b : Bullet),
    (∀ x ∈ ds, 0 ≤ x) →
    (∀ k, 1 ≤ k → k ≤ ds.length →
        |b.position.x + b.velocity.x * (ds.take k).sum| ≤ 3/2
      ∧ |b.position.y + b.velocity.y * (ds.take k).sum| ≤ 3/2) →
    0 < b.lifetime →
    ((ds.foldl (fun bs d => stepBullets d bs) [b] ≠ []) ↔ ds.sum < b.lifetime) := by
  intro ds
  induction ds with
  | nil =>
    intro b _ _ hl
    simp [hl]
  | cons d rest ih =>
    intro b hnn hin hl
    have hd0 : 0 ≤ d := hnn d (by simp)
    have hb1 := hin 1 le_rfl (by simp)
    have hx1 : |b.position.x + b.velocity.x * d| ≤ 3/2 := by
      simpa using hb1.1
    have hy1 : |b.position.y + b.velocity.y * d| ≤ 3/2 := by
      simpa using hb1.2
    rw [List.foldl_cons, stepBullets_singleton]
    by_cases hexp : b.lifetime - d ≤ 0
    · have hE : bulletExpired (bulletStep d b) = true := by
        simp [bulletExpired, bulletStep, hexp]
      rw [if_pos hE, foldl_stepBullets_nil]
      have hsum0 : 0 ≤ rest.sum :=
        List.sum_nonneg fun x hx => hnn x (by simp [hx])
      constructor
      · intro hne
        exact absurd rfl hne
      · intro hlt
        exfalso
        rw [List.sum_cons] at hlt
        linarith
    · push_neg at hexp
      have hE : bulletExpired (bulletStep d b) = false := by
        simp only [bulletExpired, bulletStep]
        rw [decide_eq_false (by linarith : ¬ (b.lifetime - d ≤ 0)),
            decide_eq_false (not_lt.mpr hx1), decide_eq_false (not_lt.mpr hy1)]
        rfl
      rw [if_neg (by rw [hE]; exact Bool.false_ne_true)]
      have hnext := ih (bulletStep d b)
        (fun x hx => hnn x (by simp [hx]))
        (fun k hk1 hk2 => by
          have h2 := hin (k + 1) (by omega) (by simpa using hk2)
          have harrx : b.position.x + b.velocity.x * ((d :: rest).take (k + 1)).sum
              = (bulletStep d b).position.x
                + (bulletStep d b).velocity.x * ((rest.take k).sum) := by
            simp [bulletStep, List.take_cons, List.sum_cons]
            ring
          have harry : b.position.y + b.velocity.y * ((d :: rest).take (k + 1)).sum
              = (bulletStep d b).position.y
                + (bulletStep d b).velocity.y * ((rest.take k).sum) := by
            simp [bulletStep, List.take_cons, List.sum_cons]
            ring
          exact ⟨by rw [← harrx]; exact h2.1, by rw [← harry]; exact h2.2⟩)
        (by simp [bulletStep]; linarith)
      rw [hnext]
      have hlife : (bulletStep d b).lifetime = b.lifetime - d := rfl
      rw [hlife, List.sum_cons]
      constructor <;> intro <;> linarith

/-- C9: a bullet created with lifetime `1.0` whose trajectory stays inside
the extended bounds is removed by the integrator exactly when the cumulative
frame delta since creation reaches `1.0` — it survives the delta list iff
the total delta is still below `1.0`, so removal happens neither earlier nor
later; and a step that carries any bullet beyond the extended bounds
(`|x| > 1.5` or `|y| > 1.5`) removes it at that step instead. -/
theorem bullet_lifetime_exact (p v : Vec2) (ds : List ℚ) (b : Bullet) (d : ℚ)
    (hnn : ∀ x ∈ ds, 0 ≤ x)
    (hin : ∀ k, 1 ≤ k → k ≤ ds.length →
        |p.x + v.x * (ds.take k).sum| ≤ 3/2
      ∧ |p.y + v.y * (ds.take k).sum| ≤ 3/2) :
    ((ds.foldl (fun bs d => stepBullets d bs) [mkBullet p v] ≠ [])
        ↔ ds.sum < 1)
  ∧ ((3/2 < |(bulletStep d b).position.x|
        ∨ 3/2 < |(bulletStep d b).position.y|) →
      stepBullets d [b] = []) := by
  constructor
  · exact bullet_survival_aux ds (mkBullet p v) hnn
      (fun k hk1 hk2 => hin k hk1 hk2) (by norm_num [mkBullet])
  · intro hoob
    rw [stepBullets_singleton, if_pos]
    rcases hoob with h | h <;> simp [bulletExpired, h]

/-- Witness for the C9 theorem at concrete inputs: a stationary bullet at
the origin survives deltas summing to `3/4 < 1`, and a step that moves a
bullet to `x = 2` removes it. -/
theorem bullet_lifetime_exact_witness :
    (([1/2, 1/4] : List ℚ).foldl (fun bs d => stepBullets d bs)
        [mkBullet ⟨0, 0⟩ ⟨0, 0⟩] ≠ [])
  ∧ stepBullets 1 [mkBullet ⟨2, 0⟩ ⟨0, 0⟩] = [] := by
  have h := bullet_lifetime_exact ⟨0, 0⟩ ⟨0, 0⟩ [1/2, 1/4]
    (mkBullet ⟨2, 0⟩ ⟨0, 0⟩) 1
    (by intro x hx; rcases List.mem_pair.mp hx with rfl | rfl <;> norm_num)
    (by
      intro k _ _
      constructor <;> · show |(0 : ℚ) + 0 * _| ≤ 3/2; norm_num)
  refine ⟨h.1.mpr (by norm_num), h.2 ?_⟩
  left
  show (3 : ℚ)/2 < |(2 : ℚ) + 0 * 1|
  norm_num

/-- Erasing at index `i` leaves the first `i` elements untouched. -/
theorem take_eraseIdx_eq {α : Type} (l : List α) (i : ℕ) (h : i ≤ l.length) :
    (l.eraseIdx i).take i = l.take i := by
  rw [List.eraseIdx_eq_take_drop_succ,
      List.take_append_of_le_length (by simpa using h), List.take_take]
  simp

/-- Hit resolution at index `j` leaves the first `j` elements untouched and
keeps the list at least `j` long. -/
theorem resolveHit_take (sr : SplitRand) (j : ℕ) (asts : List Asteroid)
    (hj : j < asts.length) :
    (resolveHit sr j asts).take j = asts.take j
  ∧ j ≤ (resolveHit sr j asts).length := by
  have hjle : j ≤ asts.length := le_of_lt hj
  have herase : (asts.eraseIdx j).length = asts.length - 1 :=
    List.length_eraseIdx_of_lt hj
  unfold resolveHit
  split_ifs with hs
  · exact ⟨take_eraseIdx_eq asts j hjle, by omega⟩
  · obtain ⟨ns, hns⟩ : ∃ ns,
        nextSizeOf (asts.getD j defaultAsteroid).size = some ns := by
      cases hsz : (asts.getD j defaultAsteroid).size
      · exact absurd hsz hs
      · exact ⟨SMALL, rfl⟩
      · exact ⟨MEDIUM, rfl⟩
    obtain ⟨c, hc, _, _⟩ := splitAsteroid_structure sr _ j asts ns hns
    rw [hc]
    constructor
    · rw [List.take_append_of_le_length (by omega), take_eraseIdx_eq asts j hjle]
    · simp only [List.length_append]
      omega

/-- The bullet scan of one asteroid: a hit removes exactly one bullet, a
miss leaves the bullet list unchanged. -/
theorem scanBullets_spec (a : Asteroid) :
    ∀ bs : List Bullet,
    ((scanBullets a bs).2 = true → (scanBullets a bs).1.length + 1 = bs.length)
  ∧ ((scanBullets a bs).2 = false → (scanBullets a bs).1 = bs) := by
  intro bs
  induction bs with
  | nil => simp [scanBullets]
  | cons b rest ih =>
    by_cases hc : checkCollision a.position a.radius b.position b.radius
    · simp [scanBullets, hc]
    · have hr : (scanBullets a (b :: rest)).2 = (scanBullets a rest).2 := by
        simp [scanBullets, hc]
      have hl : (scanBullets a (b :: rest)).1 = b :: (scanBullets a rest).1 := by
        simp [scanBullets, hc]
      constructor
      · intro h2
        rw [hr] at h2
        rw [hl]
        have := ih.1 h2
        simp only [List.length_cons]
        omega
      · intro h2
        rw [hr] at h2
        rw [hl, ih.2 h2]

/-- Unfolding of one iteration of the collision-pass loop, tested-list
component. -/
theorem bulletPassLoop_succ_tested (rngs : ℕ → SplitRand) (k j : ℕ)
    (asts : List Asteroid) (bs : List Bullet) :
    (bulletPassLoop rngs k (j + 1) asts bs).2.2
      = asts.getD j defaultAsteroid ::
        (bulletPassLoop rngs
          (if (scanBullets (asts.getD j defaultAsteroid) bs).2
                ∧ (asts.getD j defaultAsteroid).size ≠ SMALL
           then k + 1 else k)
          j
          (if (scanBullets (asts.getD j defaultAsteroid) bs).2
           then resolveHit (rngs k) j asts else asts)
          (scanBullets (asts.getD j defaultAsteroid) bs).1).2.2 := rfl

/-- The instrumented collision-pass loop entered at index `j` tests exactly
the first `j` elements of the entry list, in reverse order — the asteroids
appended by splits during the pass are never tested. -/
theorem bulletPassLoop_tested (rngs : ℕ → SplitRand) :
    ∀ (j k : ℕ) (asts : List Asteroid) (bs : List Bullet), j ≤ asts.length →
    (bulletPassLoop rngs k j asts bs).2.2 = (asts.take j).reverse := by
  intro j
  induction j with
  | zero => intro k asts bs _; simp [bulletPassLoop]
  | succ j ih =>
    intro k asts bs h
    have hj : j < asts.length := h
    have hnext : ∀ (k2 : ℕ) (asts2 : List Asteroid) (bs2 : List Bullet),
        j ≤ asts2.length → asts2.take j = asts.take j →
        (bulletPassLoop rngs k2 j asts2 bs2).2.2 = (asts.take j).reverse := by
      intro k2 asts2 bs2 hlen2 htake
      rw [ih k2 asts2 bs2 hlen2, htake]
    rw [bulletPassLoop_succ_tested]
    by_cases hhit : (scanBullets (asts.getD j defaultAsteroid) bs).2 = true
    · rw [if_pos hhit,
        hnext _ _ _ (resolveHit_take (rngs k) j asts hj).2
          (resolveHit_take (rngs k) j asts hj).1]
      rw [List.getD_eq_getElem?_getD, List.getElem?_eq_getElem hj,
          Option.getD_some, List.take_succ, List.getElem?_eq_getElem hj]
      simp only [Option.toList_some, List.reverse_append,
        List.reverse_singleton, List.singleton_append]
    · rw [if_neg hhit, hnext _ _ _ (le_of_lt hj) rfl]
      rw [List.getD_eq_getElem?_getD, List.getElem?_eq_getElem hj,
          Option.getD_some, List.take_succ, List.getElem?_eq_getElem hj]
      simp only [Option.toList_some, List.reverse_append,
        List.reverse_singleton, List.singleton_append]

/-- C8: in the bullet–asteroid pass, (i) the asteroids that get
collision-tested are exactly the asteroids present at pass entry, each
exactly once, in reverse insertion order — so the children appended by
splits during the pass are never tested this frame and become eligible only
from the next frame; and (ii) per tested asteroid the bullet scan removes
exactly one bullet on a hit (the first overlapping one in forward order,
after which scanning stops for that asteroid) and none on a miss. -/
theorem bullet_pass_originals_only (rngs : ℕ → SplitRand)
    (asts : List Asteroid) (bs : List Bullet) (a : Asteroid)
    (bs2 : List Bullet) :
    (bulletPassLoop rngs 0 asts.length asts bs).2.2 = asts.reverse
  ∧ ((scanBullets a bs2).2 = true →
      (scanBullets a bs2).1.length + 1 = bs2.length)
  ∧ ((scanBullets a bs2).2 = false → (scanBullets a bs2).1 = bs2) := by
  refine ⟨?_, (scanBullets_spec a bs2).1, (scanBullets_spec a bs2).2⟩
  have h := bulletPassLoop_tested rngs asts.length 0 asts bs le_rfl
  rwa [List.take_length] at h

/-- Witness for the C8 theorem at concrete inputs: one asteroid and one
bullet that overlaps it (both at the origin), and one bullet far away. -/
theorem bullet_pass_originals_only_witness :
    (bulletPassLoop rngs0 0 1 [defaultAsteroid] []).2.2 = [defaultAsteroid]
  ∧ (scanBullets defaultAsteroid [mkBullet ⟨0, 0⟩ ⟨0, 0⟩]).1.length + 1 = 1
  ∧ (scanBullets defaultAsteroid [mkBullet ⟨10, 10⟩ ⟨0, 0⟩]).1
      = [mkBullet ⟨10, 10⟩ ⟨0, 0⟩] := by
  refine ⟨?_, ?_, ?_⟩
  · have h := (bullet_pass_originals_only rngs0 [defaultAsteroid] []
      defaultAsteroid []).1
    simpa using h
  · refine (bullet_pass_originals_only rngs0 [] [] defaultAsteroid
      [mkBullet ⟨0, 0⟩ ⟨0, 0⟩]).2.1 ?_
    norm_num [scanBullets, checkCollision, defaultAsteroid, mkBullet,
      getRadiusFactor]
  · refine (bullet_pass_originals_only rngs0 [] [] defaultAsteroid
      [mkBullet ⟨10, 10⟩ ⟨0, 0⟩]).2.2 ?_
    norm_num [scanBullets, checkCollision, defaultAsteroid, mkBullet,
      getRadiusFactor]

/-- `processInput` with a held fire intent and an expired cooldown appends
exactly one bullet. -/
theorem processInput_bullets_length_fire (facing : ℚ → Vec2) (inp : Inputs)
    (d : ℚ) (st : GameState) (h : inp.space = true ∧ st.bulletCooldown ≤ 0) :
    (processInput facing inp d st).bullets.length = st.bullets.length + 1 := by
  simp [processInput, h]

/-- `processInput` leaves the bullet list unchanged when the fire gate is
closed. -/
theorem processInput_bullets_nofire (facing : ℚ → Vec2) (inp : Inputs)
    (d : ℚ) (st : GameState)
    (h : ¬(inp.space = true ∧ st.bulletCooldown ≤ 0)) :
    (processInput facing inp d st).bullets = st.bullets := by
  simp [processInput, h]

/-- The cooldown stored back by `processInput`. -/
theorem processInput_cooldown (facing : ℚ → Vec2) (inp : Inputs) (d : ℚ)
    (st : GameState) :
    (processInput facing inp d st).bulletCooldown
      = if inp.space = true ∧ st.bulletCooldown ≤ 0 then FIRE_RATE
        else st.bulletCooldown := by
  by_cases h : inp.space = true ∧ st.bulletCooldown ≤ 0 <;>
    simp [processInput, h]

/-- A game-over state with an expired fire cooldown. -/
def gsOverA : GameState := { initState with isGameOver := true }

/-- The same game-over state, differing only in the fire cooldown. -/
def gsOverB : GameState :=
  { initState with isGameOver := true, bulletCooldown := 1 }

/-- A frame input holding only the fire intent. -/
def finFire : FrameInput :=
  { inputs := { left := false, right := false, up := false, space := true }
    delta := 1/10, facing := facing0, spawnRng := sr0, splitRngs := rngs0 }

/-- C4 counterexample: two post-game-over states differing only in the fire
cooldown produce *different* render snapshots under the same held-fire
frame: input processing still runs after game over, so the state with
expired cooldown fires a bullet (which the renderer draws) while the other
does not — the cooldown decrement remains observable after game over. -/
theorem cooldown_observable_after_game_over :
    gsOverA.isGameOver = true
  ∧ gsOverB.isGameOver = true
  ∧ gsOverB = { gsOverA with bulletCooldown := 1 }
  ∧ renderSnapshot (frame finFire gsOverA)
      ≠ renderSnapshot (frame finFire gsOverB) := by
  have hA : (frame finFire gsOverA).bullets.length = 1 := by
    rw [frame_of_gameOver finFire gsOverA rfl,
        processInput_bullets_length_fire _ _ _ _
          ⟨rfl, by norm_num [gsOverA, initState, finFire]⟩]
    simp [gsOverA, initState]
  have hB : (frame finFire gsOverB).bullets.length = 0 := by
    rw [frame_of_gameOver finFire gsOverB rfl,
        processInput_bullets_nofire _ _ _ _ (by
          simp only [not_and]
          intro _
          norm_num [gsOverB, initState, finFire])]
    simp [gsOverB, initState]
  refine ⟨rfl, rfl, rfl, ?_⟩
  intro heq
  have h1 : (renderSnapshot (frame finFire gsOverA)).bulletsDrawn.length
      = (renderSnapshot (frame finFire gsOverB)).bulletsDrawn.length := by
    rw [heq]
  simp only [renderSnapshot, List.length_map] at h1
  rw [hA, hB] at h1
  exact absurd h1 (by norm_num)

/-- C4 (amended): once the game-over flag is set, the spawner / physics /
collision block is skipped — asteroids, spawn timer and spawn interval are
untouched and the flag stays set — but input processing still runs: the
cooldown keeps decrementing and still gates firing, so a held fire intent
with post-decrement cooldown ≤ 0 appends one bullet (observable in the
render snapshot) and resets the cooldown; with the gate closed the bullet
list is unchanged.  The cooldown decrement is therefore *not* observationally
inert after game over. -/
theorem game_over_frame_effect (fin : FrameInput) (st : GameState)
    (h : st.isGameOver = true) :
    (frame fin st).asteroids = st.asteroids
  ∧ (frame fin st).isGameOver = true
  ∧ (frame fin st).asteroidSpawnTimer = st.asteroidSpawnTimer
  ∧ (frame fin st).currentSpawnRate = st.currentSpawnRate
  ∧ (frame fin st).bulletCooldown
      = (if fin.inputs.space = true ∧ st.bulletCooldown - fin.delta ≤ 0
         then FIRE_RATE else st.bulletCooldown - fin.delta)
  ∧ (fin.inputs.space = true ∧ st.bulletCooldown - fin.delta ≤ 0 →
      (frame fin st).bullets.length = st.bullets.length + 1)
  ∧ (¬(fin.inputs.space = true ∧ st.bulletCooldown - fin.delta ≤ 0) →
      (frame fin st).bullets = st.bullets) := by
  rw [frame_of_gameOver fin st h]
  refine ⟨by rw [processInput_asteroids], by rw [processInput_isGameOver]; exact h,
    by rw [processInput_spawnTimer], by rw [processInput_spawnRate],
    by rw [processInput_cooldown], ?_, ?_⟩
  · intro hc
    rw [processInput_bullets_length_fire _ _ _ _ ⟨hc.1, hc.2⟩]
  · intro hc
    rw [processInput_bullets_nofire _ _ _ _ hc]

/-- Witness for the amended C4 theorem at concrete inputs. -/
theorem game_over_frame_effect_witness :
    (frame finFire gsOverA).asteroids = gsOverA.asteroids
  ∧ (frame finFire gsOverA).bullets.length = gsOverA.bullets.length + 1 := by
  have h := game_over_frame_effect finFire gsOverA rfl
  exact ⟨h.1, h.2.2.2.2.2.1
    ⟨rfl, by norm_num [gsOverA, initState, finFire]⟩⟩
